import Mathlib

/-!
Verification of the Component Resolution & Deployment Engine of the
`golem-cli` command layer (`src/golem-cli/src/command_handler/component/mod.rs`).

The Rust code is shallowly embedded: pure logic becomes Lean functions,
`anyhow::Result` becomes `Except CliError`, remote clients become oracle
records (for read-only lookups) or an explicit `Store` state (for the
create/update deployment path, whose semantics are taken from the spec's
ComponentStore contract since the remote store is an external collaborator).
-/

namespace GolemCli

/-- Component type of a deployed component (`golem_common::model::ComponentType`). -/
inductive ComponentType where
  | Durable
  | Ephemeral
deriving DecidableEq, Repr

/-- Versioned component id: pair of component id (UUID, modelled as `Nat`) and version. -/
structure VersionedComponentId where
  component_id : Nat
  version : Nat
deriving DecidableEq, Repr

/-- A component record as returned by the remote store (`model::component::Component`,
restricted to the fields the resolution/deployment logic reads). -/
structure Component where
  versioned_component_id : VersionedComponentId
  component_name : String
  component_type : ComponentType
deriving DecidableEq, Repr

/-- Result of a remote service call. `notFound` is the distinguished "not found"
service error that `map_service_error_not_found_as_opt` turns into `None`. -/
inductive ServiceResult (α : Type) where
  | ok (a : α)
  | notFound
  | error (msg : String)
deriving DecidableEq, Repr

/-- Error type of the embedded CLI operations (the image of the various
`anyhow` errors produced by the embedded code paths; each constructor
corresponds to one distinct error source in the Rust code). -/
inductive CliError where
  | missingSegment (role : String)
  | malformedComponentName (raw : String)
  | serviceError (msg : String)
  | notDeployable (name : String)
  | ifsArchiveError (msg : String)
  | fileOpenError (path : String)
  | stubInterfacesError (dep : String) (msg : String)
  | workerServiceError (msg : String)
deriving DecidableEq, Repr

/-- Embedding of `.map_service_error()`: any service error (including not-found)
becomes an `anyhow` error. -/
def mapServiceError {α : Type} : ServiceResult α → Except CliError α
  | .ok a => .ok a
  | .notFound => .error (.serviceError "not found")
  | .error m => .error (.serviceError m)

/-- Embedding of `.map_service_error_not_found_as_opt()`: not-found becomes
`Ok(None)`, other service errors propagate. -/
def mapServiceErrorNotFoundAsOpt {α : Type} : ServiceResult α → Except CliError (Option α)
  | .ok a => .ok (some a)
  | .notFound => .ok none
  | .error m => .error (.serviceError m)

/-- Embedding of Rust's `Result::ok()` used on the worker-metadata sub-lookup. -/
def ServiceResult.toOption {α : Type} : ServiceResult α → Option α
  | .ok a => some a
  | _ => none

/-- Worker metadata, restricted to the field read by the version-by-worker lookup. -/
structure WorkerMetadata where
  component_version : Nat
deriving DecidableEq, Repr

/-- A project reference (`ProjectNameAndId`). -/
structure ProjectNameAndId where
  project_name : String
  project_id : Nat
deriving DecidableEq, Repr

/-- Account id (`cloud::AccountId`), a string wrapper. -/
abbrev AccountId := String

/-- Read-only client surface used by the `component` lookup. The OSS and Cloud
branches of the Rust code differ only in whether a project id is passed along;
both are covered by this single interface (the spec's unified ComponentStore),
with `get_components` receiving the optional project id. -/
structure Clients where
  get_components : Option Nat → Option String → ServiceResult (List Component)
  get_latest_component_metadata : Nat → ServiceResult Component
  get_component_metadata : Nat → Nat → ServiceResult Component
  worker_metadata : Nat → String → String → ServiceResult WorkerMetadata

/-- `ComponentSelection`: select a component by name or by id. -/
inductive ComponentSelection where
  | name (n : String)
  | id (i : Nat)
deriving DecidableEq, Repr

/-- `ComponentVersionSelection`: pin the looked-up component to a version. -/
inductive ComponentVersionSelection where
  | byWorkerName (worker_name : String)
  | byExplicitVersion (version : Nat)
deriving DecidableEq, Repr

/-- Embedding of `ComponentCommandHandler::component` (the ComponentLookup):
resolve by name (taking the last entry popped from the store's list) or by id
(not-found mapped to `None`), then optionally pin a version by worker name
(best effort, failures discarded by `.ok()`) or by explicit version (strict). -/
def component (clients : Clients) (project : Option ProjectNameAndId)
    (component_name_or_id : ComponentSelection)
    (component_version_selection : Option ComponentVersionSelection) :
    Except CliError (Option Component) :=
  let base : Except CliError (Option Component) :=
    match component_name_or_id with
    | .name n =>
      match mapServiceError (clients.get_components (project.map (·.project_id)) (some n)) with
      | .error e => .error e
      | .ok components =>
        if components.isEmpty then .ok none
        else .ok components.getLast?
    | .id i => mapServiceErrorNotFoundAsOpt (clients.get_latest_component_metadata i)
  match base with
  | .error e => .error e
  | .ok none => .ok none
  | .ok (some c) =>
    match component_version_selection with
    | none => .ok (some c)
    | some vs =>
      let version : Option Nat :=
        match vs with
        | .byWorkerName w =>
          ((clients.worker_metadata c.versioned_component_id.component_id
              c.component_name w).toOption).map (·.component_version)
        | .byExplicitVersion v => some v
      match version with
      | none => .ok (some c)
      | some v =>
        match mapServiceError
            (clients.get_component_metadata c.versioned_component_id.component_id v) with
        | .error e => .error e
        | .ok c2 => .ok (some c2)

/-- Embedding of `component_id_by_name`. -/
def component_id_by_name (clients : Clients) (project : Option ProjectNameAndId)
    (component_name : String) : Except CliError (Option Nat) :=
  match component clients project (.name component_name) none with
  | .error e => .error e
  | .ok c => .ok (c.map (·.versioned_component_id.component_id))

/-- Embedding of the local `empty_checked` helper of
`select_components_by_app_or_name_internal`: a present-but-empty segment
fails with an error naming the segment's role. -/
def empty_checked (name : String) (value : String) : Except CliError String :=
  if value = "" then .error (.missingSegment name) else .ok value

/-- Accumulator recursion behind `split_slash`. -/
def splitSegsAux : List Char → List Char → List String
  | [], acc => [String.mk acc.reverse]
  | c :: rest, acc =>
    if c = '/' then String.mk acc.reverse :: splitSegsAux rest []
    else splitSegsAux rest (c :: acc)

/-- Embedding of Rust's `str::split("/")` (as used on the raw component name):
split into segments between `/` separators, keeping empty segments; the empty
string yields one empty segment, a leading/trailing separator yields a
leading/trailing empty segment. -/
def split_slash (raw : String) : List String :=
  splitSegsAux raw.data []

/-- Embedding of the identifier-parsing block of
`select_components_by_app_or_name_internal` (the `match segments.len()` over
`component_name.0.split("/")`). Project resolution (`select_project`) is the
external cloud-project handler, taken as an oracle; evaluation order mirrors
the Rust code: in the 2-segment case project-segment check, then
`select_project`, then component-segment check; in the 3-segment case the
account-segment check comes first. -/
def parse_component_name
    (select_project : Option AccountId → String → Except CliError ProjectNameAndId)
    (raw : String) :
    Except CliError (Option AccountId × Option ProjectNameAndId × String) :=
  let segments := split_slash raw
  match segments with
  | [s0] =>
    match empty_checked "component" s0 with
    | .error e => .error e
    | .ok c => .ok (none, none, c)
  | [s0, s1] =>
    match empty_checked "project" s0 with
    | .error e => .error e
    | .ok p =>
      match select_project none p with
      | .error e => .error e
      | .ok pr =>
        match empty_checked "component" s1 with
        | .error e => .error e
        | .ok c => .ok (none, some pr, c)
  | [s0, s1, s2] =>
    match empty_checked "account" s0 with
    | .error e => .error e
    | .ok a =>
      match empty_checked "project" s1 with
      | .error e => .error e
      | .ok p =>
        match select_project (some a) p with
        | .error e => .error e
        | .ok pr =>
          match empty_checked "component" s2 with
          | .error e => .error e
          | .ok c => .ok (some a, some pr, c)
  | _ => .error (.malformedComponentName raw)

/-- Dependency kind tag of a declared component dependency
(`model::app::DependencyType`, restricted to the kinds the filter
distinguishes). -/
inductive DependencyType where
  | DynamicWasmRpc
  | StaticWasmRpc
deriving DecidableEq, Repr

/-- A declared component dependency (name plus kind tag). -/
structure Dependency where
  name : String
  dep_type : DependencyType
deriving DecidableEq, Repr

/-- Resolved stub-interface metadata of one dynamic WASM-RPC dependency, as
returned by `app_ctx.component_stub_interfaces`. -/
structure StubInterfaces where
  stub_interface_name : String
  exported_interfaces_per_stub_resource : List (String × String)
  component_name : String
  is_ephemeral : Bool
deriving DecidableEq, Repr

/-- `WasmRpcTarget`: one resource's cross-component call target. -/
structure WasmRpcTarget where
  interface_name : String
  component_name : String
  component_type : ComponentType
deriving DecidableEq, Repr

/-- `DynamicLinkedWasmRpc`: targets keyed by resource name. -/
structure DynamicLinkedWasmRpc where
  targets : List (String × WasmRpcTarget)
deriving DecidableEq, Repr

/-- `DynamicLinkedInstance`. -/
inductive DynamicLinkedInstance where
  | WasmRpc (dl : DynamicLinkedWasmRpc)
deriving DecidableEq, Repr

/-- `DynamicLinking`: the dynamic-linking map keyed by stub interface name. -/
structure DynamicLinking where
  dynamic_linking : List (String × DynamicLinkedInstance)
deriving DecidableEq, Repr

/-- Embedding of `HashMap::from_iter`: later insertions overwrite earlier ones
with the same key (the hash map's iteration order itself is unspecified; this
embedding keeps insertion order of the surviving entries). -/
def hash_map_from_iter {α : Type} (l : List (String × α)) : List (String × α) :=
  l.foldl (fun acc kv => acc.filter (fun p => p.1 ≠ kv.1) ++ [kv]) []

/-- Component type as declared in the application manifest.
Modelled from the spec: the manifest-level component type of `model::app`
(an external collaborator, not under `src/`), whose deployable kinds map to
`ComponentType` and whose library kind is not deployable (§4.4:
"purely library components cannot be deployed"). -/
inductive AppComponentType where
  | durable
  | ephemeral
  | library
deriving DecidableEq, Repr

/-- Modelled from the spec: `as_deployable_component_type` of the manifest
component type — deployable kinds yield their wire `ComponentType`, the
library kind yields none. -/
def AppComponentType.as_deployable_component_type :
    AppComponentType → Option ComponentType
  | .durable => some .Durable
  | .ephemeral => some .Ephemeral
  | .library => none

/-- Modelled from the spec: `is_deployable` as used by the deploy loop's gate;
a manifest component type is deployable exactly when it has a deployable wire
component type. -/
def AppComponentType.is_deployable (t : AppComponentType) : Bool :=
  t.as_deployable_component_type.isSome

/-- An initial component file (IFS) declaration; contents are opaque to the
resolution logic, only list emptiness is inspected. -/
structure InitialComponentFile where
  path : String
deriving DecidableEq, Repr

/-- Per-component manifest properties read by `component_deploy_properties`. -/
structure ComponentProperties where
  component_type : AppComponentType
  files : List InitialComponentFile

/-- The application/manifest context (external `ManifestContext` collaborator),
as an oracle record over the operations the embedded code calls. The
`component_stub_interfaces` oracle returns its own abstract error (a message),
which the embedding wraps into `CliError.stubInterfacesError`. -/
structure AppCtx where
  component_final_linked_wasm : String → Option String → String
  component_properties : String → Option String → ComponentProperties
  component_dependencies : String → List Dependency
  component_stub_interfaces : String → Except String StubInterfaces
  selected_component_names : List String

/-- Embedding of the resolution loop of `app_component_dynamic_linking`:
`for wasm_rpc_dep in wasm_rpc_deps { mapping.push(component_stub_interfaces(dep)?) }`. -/
def resolve_stub_interfaces (app_ctx : AppCtx) :
    List Dependency → Except CliError (List StubInterfaces)
  | [] => .ok []
  | dep :: rest =>
    match app_ctx.component_stub_interfaces dep.name with
    | .error m => .error (.stubInterfacesError dep.name m)
    | .ok si =>
      match resolve_stub_interfaces app_ctx rest with
      | .error e => .error e
      | .ok tail => .ok (si :: tail)

/-- Embedding of `app_component_dynamic_linking`: filter declared dependencies
to the dynamic WASM-RPC kind, resolve each one's stub interfaces, and build the
dynamic-linking map only when the resolved list is non-empty. -/
def app_component_dynamic_linking (app_ctx : AppCtx) (component_name : String) :
    Except CliError (Option DynamicLinking) :=
  let wasm_rpc_deps :=
    (app_ctx.component_dependencies component_name).filter
      (fun dep => dep.dep_type = DependencyType.DynamicWasmRpc)
  match resolve_stub_interfaces app_ctx wasm_rpc_deps with
  | .error e => .error e
  | .ok mapping =>
    if mapping.isEmpty then .ok none
    else
      .ok (some ⟨hash_map_from_iter (mapping.map (fun stub_interfaces =>
        (stub_interfaces.stub_interface_name,
          DynamicLinkedInstance.WasmRpc ⟨hash_map_from_iter
            (stub_interfaces.exported_interfaces_per_stub_resource.map
              (fun ri =>
                (ri.1,
                  { interface_name := ri.2
                    component_name := stub_interfaces.component_name
                    component_type :=
                      if stub_interfaces.is_ephemeral then ComponentType.Ephemeral
                      else ComponentType.Durable : WasmRpcTarget })))⟩)))⟩)

/-- `ComponentDeployProperties`. -/
structure ComponentDeployProperties where
  component_type : ComponentType
  linked_wasm_path : String
  files : List InitialComponentFile
  dynamic_linking : Option DynamicLinking

/-- Embedding of `component_deploy_properties`: read the linked WASM path and
manifest properties, fail with `notDeployable` when the declared type has no
deployable component type, and compute the dynamic-linking map. -/
def component_deploy_properties (app_ctx : AppCtx) (component_name : String)
    (build_profile : Option String) : Except CliError ComponentDeployProperties :=
  let linked_wasm_path :=
    app_ctx.component_final_linked_wasm component_name build_profile
  let component_properties :=
    app_ctx.component_properties component_name build_profile
  match component_properties.component_type.as_deployable_component_type with
  | none => .error (.notDeployable component_name)
  | some component_type =>
    match app_component_dynamic_linking app_ctx component_name with
    | .error e => .error e
    | .ok dynamic_linking =>
      .ok { component_type := component_type
            linked_wasm_path := linked_wasm_path
            files := component_properties.files
            dynamic_linking := dynamic_linking }

/-- Modelled from the spec: the remote ComponentStore (§6, an external
collaborator not under `src/`) as a list of component rows plus a fresh-id
counter. `list-by-name` filters rows in insertion order (creates at version 0,
updates appended with bumped versions, so per-name order is version-ascending
as §6 assumes). -/
structure Store where
  components : List Component
  next_id : Nat
deriving DecidableEq, Repr

/-- Modelled from the spec: ComponentStore `list-by-name` (§6) — all rows whose
name matches, in insertion (version-ascending) order. -/
def Store.get_components (s : Store) (name : Option String) : List Component :=
  match name with
  | some n => s.components.filter (fun c => c.component_name == n)
  | none => s.components

/-- Modelled from the spec: ComponentStore `get-latest(id)` (§6). -/
def Store.get_latest_component_metadata (s : Store) (id : Nat) :
    ServiceResult Component :=
  match (s.components.filter
      (fun c => c.versioned_component_id.component_id == id)).getLast? with
  | some c => .ok c
  | none => .notFound

/-- Modelled from the spec: ComponentStore `get-by-id-version` (§6). -/
def Store.get_component_metadata (s : Store) (id : Nat) (version : Nat) :
    ServiceResult Component :=
  match (s.components.filter (fun c =>
      c.versioned_component_id.component_id == id
        && c.versioned_component_id.version == version)).getLast? with
  | some c => .ok c
  | none => .notFound

/-- Modelled from the spec: ComponentStore `update(id, type, ...)` (§6) — bumps
the version of the existing component with that id (keeping its id and name)
and appends the new row; not-found when no row has the id. -/
def Store.update_component (s : Store) (id : Nat) (component_type : ComponentType) :
    ServiceResult (Component × Store) :=
  match (s.components.filter
      (fun c => c.versioned_component_id.component_id == id)).getLast? with
  | none => .notFound
  | some prev =>
    let c : Component :=
      { versioned_component_id :=
          { component_id := id, version := prev.versioned_component_id.version + 1 }
        component_name := prev.component_name
        component_type := component_type }
    .ok (c, { components := s.components ++ [c], next_id := s.next_id })

/-- Modelled from the spec: ComponentStore `create(name, type, ...)` (§6) —
allocates a fresh id at version 0 and appends the new row. -/
def Store.create_component (s : Store) (name : String)
    (component_type : ComponentType) : ServiceResult (Component × Store) :=
  let c : Component :=
    { versioned_component_id := { component_id := s.next_id, version := 0 }
      component_name := name
      component_type := component_type }
  .ok (c, { components := s.components ++ [c], next_id := s.next_id + 1 })

/-- Read-only client view of a `Store` (worker metadata is irrelevant here: the
deploy path never selects a version, so the worker oracle is never consulted). -/
def Store.clients (s : Store) : Clients :=
  { get_components := fun _ n => .ok (s.get_components n)
    get_latest_component_metadata := s.get_latest_component_metadata
    get_component_metadata := s.get_component_metadata
    worker_metadata := fun _ _ _ => .notFound }

/-- External effect oracles of the deploy path: the IFS archive builder and
`File::open` (success/failure per path). -/
structure DeployOracles where
  build_files_archive : List InitialComponentFile → Except String (List InitialComponentFile × String)
  open_file : String → Bool

/-- Which store operation a deploy performed, with the id it used. -/
inductive DeployOp where
  | created (id : Nat)
  | updated (id : Nat)
deriving DecidableEq, Repr

/-- Embedding of `deploy_component`: resolve the component id by name first,
compute deploy properties, build/open the IFS archive if files are declared,
open the linked WASM, then call the store's update (when an id was found) or
create (when none was). The performed operation is returned alongside the
resulting component and store so that routing is observable. -/
def deploy_component (oracles : DeployOracles) (app_ctx : AppCtx)
    (build_profile : Option String) (project : Option ProjectNameAndId)
    (component_name : String) (s : Store) :
    Except CliError (DeployOp × Component × Store) :=
  match component_id_by_name s.clients project component_name with
  | .error e => .error e
  | .ok component_id =>
    match component_deploy_properties app_ctx component_name build_profile with
    | .error e => .error e
    | .ok deploy_properties =>
      let ifs_files : Except CliError (Option (List InitialComponentFile × String)) :=
        if deploy_properties.files.isEmpty then .ok none
        else
          match oracles.build_files_archive deploy_properties.files with
          | .error m => .error (.ifsArchiveError m)
          | .ok f => .ok (some f)
      match ifs_files with
      | .error e => .error e
      | .ok ifs_files =>
        let ifs_archive : Except CliError Unit :=
          match ifs_files with
          | some f =>
            if oracles.open_file f.2 then .ok ()
            else .error (.fileOpenError f.2)
          | none => .ok ()
        match ifs_archive with
        | .error e => .error e
        | .ok _ =>
          if oracles.open_file deploy_properties.linked_wasm_path then
            match component_id with
            | some id =>
              match mapServiceError
                  (s.update_component id deploy_properties.component_type) with
              | .error e => .error e
              | .ok cs => .ok (.updated id, cs.1, cs.2)
            | none =>
              match mapServiceError
                  (s.create_component component_name deploy_properties.component_type) with
              | .error e => .error e
              | .ok cs =>
                .ok (.created cs.1.versioned_component_id.component_id, cs.1, cs.2)
          else .error (.fileOpenError deploy_properties.linked_wasm_path)

/-- Embedding of the per-component loop of `deploy` (lines 599-621): iterate
the selected component names and invoke `deploy_component` only for those whose
manifest properties are deployable, skipping the rest. The first output is the
list of names `deploy_component` was actually invoked on (in order), kept even
when a deploy fails so that the invocation trace is observable. -/
def deploy_components_loop (oracles : DeployOracles) (app_ctx : AppCtx)
    (build_profile : Option String) (project : Option ProjectNameAndId) :
    List String → Store → List String × Except CliError (List Component × Store)
  | [], s => ([], .ok ([], s))
  | component_name :: rest, s =>
    if (app_ctx.component_properties component_name
        build_profile).component_type.is_deployable then
      match deploy_component oracles app_ctx build_profile project component_name s with
      | .error e => ([component_name], .error e)
      | .ok (_, c, s2) =>
        let tail := deploy_components_loop oracles app_ctx build_profile project rest s2
        (component_name :: tail.1,
          match tail.2 with
          | .error e => .error e
          | .ok (cs, s3) => .ok (c :: cs, s3))
    else deploy_components_loop oracles app_ctx build_profile project rest s

/-- Worker update mode (`WorkerUpdateMode`). -/
inductive WorkerUpdateMode where
  | automatic
  | manual
deriving DecidableEq, Repr

/-- One per-worker/per-component update outcome.
Modelled from the spec: the contents of the aggregate outcome object (§3
TryUpdateAllWorkersResult), which lives outside `src/`. -/
inductive WorkerUpdateOutcome where
  | success (component_name : String)
  | failure (component_name : String) (msg : String)
deriving DecidableEq, Repr

/-- Modelled from the spec: `TryUpdateAllWorkersResult` (§3), an accumulator of
per-component update outcomes. -/
structure TryUpdateAllWorkersResult where
  outcomes : List WorkerUpdateOutcome
deriving DecidableEq, Repr

/-- Embedding of `TryUpdateAllWorkersResult::extend`: append the other
aggregate's outcomes. -/
def TryUpdateAllWorkersResult.extend (a b : TryUpdateAllWorkersResult) :
    TryUpdateAllWorkersResult :=
  ⟨a.outcomes ++ b.outcomes⟩

/-- The external WorkerLifecycleBridge (§6, not under `src/`).
Modelled from the spec: `update` reports per-component failures inside its
outcome object (§6: update → outcome) while a hard service failure is still an
error; `redeploy` yields outcome-or-error. Both abstract errors are wrapped
into `CliError.workerServiceError` by the embedding. -/
structure WorkerBridge where
  update_component_workers :
    String → Nat → WorkerUpdateMode → Nat → Except String TryUpdateAllWorkersResult
  redeploy_component_workers : String → Nat → Except String Unit

/-- Recursion of `update_workers_by_components`: fold each component's bridge
result into the running aggregate with `extend`. The first output is the list
of component names the bridge was invoked on. -/
def update_workers_go (bridge : WorkerBridge) (update : WorkerUpdateMode) :
    List Component → TryUpdateAllWorkersResult →
    List String × Except CliError TryUpdateAllWorkersResult
  | [], acc => ([], .ok acc)
  | c :: rest, acc =>
    match bridge.update_component_workers c.component_name
        c.versioned_component_id.component_id update
        c.versioned_component_id.version with
    | .error m => ([c.component_name], .error (.workerServiceError m))
    | .ok result =>
      let tail := update_workers_go bridge update rest (acc.extend result)
      (c.component_name :: tail.1, tail.2)

/-- Embedding of `update_workers_by_components`: early return on an empty batch,
otherwise fold every component's outcome into one aggregate (the aggregate that
the Rust code logs at the end is returned here). -/
def update_workers_by_components (bridge : WorkerBridge)
    (components : List Component) (update : WorkerUpdateMode) :
    List String × Except CliError TryUpdateAllWorkersResult :=
  if components.isEmpty then ([], .ok ⟨[]⟩)
  else update_workers_go bridge update components ⟨[]⟩

/-- Recursion of `redeploy_workers_by_components`: invoke the bridge on each
component in order, propagating the first error (`.await?`). The first output
is the list of component names the bridge was invoked on. -/
def redeploy_workers_go (bridge : WorkerBridge) :
    List Component → List String × Except CliError Unit
  | [] => ([], .ok ())
  | c :: rest =>
    match bridge.redeploy_component_workers c.component_name
        c.versioned_component_id.component_id with
    | .error m => ([c.component_name], .error (.workerServiceError m))
    | .ok _ =>
      let tail := redeploy_workers_go bridge rest
      (c.component_name :: tail.1, tail.2)

/-- Embedding of `redeploy_workers_by_components`: early return on an empty
batch, otherwise redeploy each component's workers, short-circuiting on the
first failure. -/
def redeploy_workers_by_components (bridge : WorkerBridge)
    (components : List Component) : List String × Except CliError Unit :=
  if components.isEmpty then ([], .ok ())
  else redeploy_workers_go bridge components

/-- Concrete project resolver used by witnesses. -/
def fixtureSelectProject : Option AccountId → String → Except CliError ProjectNameAndId :=
  fun _ p => .ok { project_name := p, project_id := 7 }

/-- Concrete stub-interface record used by witnesses. -/
def fixtureStub : StubInterfaces :=
  { stub_interface_name := "api-stub"
    exported_interfaces_per_stub_resource := [("res1", "iface1"), ("res2", "iface2")]
    component_name := "dep-comp"
    is_ephemeral := true }

/-- Concrete application context used by witnesses: `main` is a deployable
durable component with one dynamic WASM-RPC dependency, `lib` is a
non-deployable library component, `plain` has no dependencies. -/
def fixtureApp : AppCtx :=
  { component_final_linked_wasm := fun n _ => n ++ ".wasm"
    component_properties := fun n _ =>
      if n = "lib" then { component_type := .library, files := [] }
      else { component_type := .durable, files := [] }
    component_dependencies := fun n =>
      if n = "main" then [{ name := "dep", dep_type := .DynamicWasmRpc }] else []
    component_stub_interfaces := fun d =>
      if d = "dep" then .ok fixtureStub else .error "dependency was never built"
    selected_component_names := ["main", "lib"] }

/-- Concrete deploy oracles used by witnesses: everything succeeds. -/
def fixtureOracles : DeployOracles :=
  { build_files_archive := fun fs => .ok (fs, "archive.zip")
    open_file := fun _ => true }

/-- Concrete component record used by witnesses. -/
def fixtureComponent (name : String) (id ver : Nat) : Component :=
  { versioned_component_id := { component_id := id, version := ver }
    component_name := name
    component_type := .Durable }

/-- Concrete worker bridge used by witnesses: component `B` fails (its update
outcome records a failure and its redeploy call errors), others succeed. -/
def fixtureBridge : WorkerBridge :=
  { update_component_workers := fun n _ _ _ =>
      if n = "B" then .ok ⟨[.failure "B" "update failed"]⟩ else .ok ⟨[.success n]⟩
    redeploy_component_workers := fun n _ =>
      if n = "B" then .error "redeploy failed" else .ok () }

/-- Concrete read-only clients used by witnesses: list-by-name always returns
`l`, metadata fetches are not found, the worker lookup fails. -/
def fixtureClients (l : List Component) : Clients :=
  { get_components := fun _ _ => .ok l
    get_latest_component_metadata := fun _ => .notFound
    get_component_metadata := fun _ _ => .notFound
    worker_metadata := fun _ _ _ => .error "worker lookup failed" }

/-- Claim C2: for a by-name lookup with no version selection, an empty
list-by-name result yields `Ok(None)` (never an error), and a non-empty result
yields `Some` of exactly the last entry returned by the store. -/
theorem c2_by_name_lookup (clients : Clients) (project : Option ProjectNameAndId)
    (n : String) (l : List Component)
    (h : clients.get_components (project.map (·.project_id)) (some n) = .ok l) :
    (l = [] → component clients project (.name n) none = .ok none) ∧
    (∀ hl : l ≠ [],
      component clients project (.name n) none = .ok (some (l.getLast hl))) := by
  constructor
  · intro hl
    subst hl
    simp [component, h, mapServiceError]
  · intro hl
    have hg : l.getLast? = some (l.getLast hl) :=
      List.getLast?_eq_getLast_of_ne_nil hl
    simp [component, h, mapServiceError, List.isEmpty_iff, hl, hg]

/-- Witness for C2 at concrete inputs. -/
theorem c2_by_name_lookup_witness :
    component (fixtureClients []) none (.name "comp") none = .ok none ∧
    component (fixtureClients [fixtureComponent "comp" 3 0, fixtureComponent "comp" 3 1])
      none (.name "comp") none = .ok (some (fixtureComponent "comp" 3 1)) := by
  constructor
  · exact (c2_by_name_lookup (fixtureClients []) none "comp" [] rfl).1 rfl
  · exact (c2_by_name_lookup
      (fixtureClients [fixtureComponent "comp" 3 0, fixtureComponent "comp" 3 1])
      none "comp" [fixtureComponent "comp" 3 0, fixtureComponent "comp" 3 1] rfl).2
      (by decide)

/-- Claim C7: when a component was found by name and an explicit version
selection is supplied whose version does not exist in the store, the lookup
returns an error — never `Ok(None)` and never the unpinned component. -/
theorem c7_explicit_version_strict (clients : Clients)
    (project : Option ProjectNameAndId) (n : String) (l : List Component)
    (c : Component) (v : Nat)
    (h : clients.get_components (project.map (·.project_id)) (some n) = .ok l)
    (hl : l.getLast? = some c)
    (hv : clients.get_component_metadata c.versioned_component_id.component_id v =
      .notFound) :
    component clients project (.name n) (some (.byExplicitVersion v)) =
      .error (.serviceError "not found") := by
  have hne : l ≠ [] := by
    intro he
    subst he
    simp at hl
  simp [component, h, mapServiceError, List.isEmpty_iff, hne, hl, hv]

/-- Witness for C7 at concrete inputs. -/
theorem c7_explicit_version_strict_witness :
    component (fixtureClients [fixtureComponent "comp" 3 0]) none (.name "comp")
      (some (.byExplicitVersion 9)) = .error (.serviceError "not found") :=
  c7_explicit_version_strict (fixtureClients [fixtureComponent "comp" 3 0]) none
    "comp" [fixtureComponent "comp" 3 0] (fixtureComponent "comp" 3 0) 9 rfl rfl rfl

/-- Claim C8: when a component was found by name and version selection is by
worker name, any failure of the worker-metadata sub-lookup is discarded and the
lookup succeeds with the unpinned (latest) component. -/
theorem c8_by_worker_fallback (clients : Clients)
    (project : Option ProjectNameAndId) (n : String) (l : List Component)
    (c : Component) (w : String)
    (h : clients.get_components (project.map (·.project_id)) (some n) = .ok l)
    (hl : l.getLast? = some c)
    (hw : ∀ wm, clients.worker_metadata c.versioned_component_id.component_id
      c.component_name w ≠ .ok wm) :
    component clients project (.name n) (some (.byWorkerName w)) = .ok (some c) := by
  have hne : l ≠ [] := by
    intro he
    subst he
    simp at hl
  have hwo : (clients.worker_metadata c.versioned_component_id.component_id
      c.component_name w).toOption = none := by
    cases hcase : clients.worker_metadata c.versioned_component_id.component_id
        c.component_name w with
    | ok wm => exact absurd hcase (hw wm)
    | notFound => rfl
    | error m => rfl
  simp [component, h, mapServiceError, List.isEmpty_iff, hne, hl, hwo]

/-- Witness for C8 at concrete inputs. -/
theorem c8_by_worker_fallback_witness :
    component (fixtureClients [fixtureComponent "comp" 3 0]) none (.name "comp")
      (some (.byWorkerName "worker1")) = .ok (some (fixtureComponent "comp" 3 0)) := by
  exact c8_by_worker_fallback (fixtureClients [fixtureComponent "comp" 3 0]) none
    "comp" [fixtureComponent "comp" 3 0] (fixtureComponent "comp" 3 0) "worker1"
    rfl rfl (fun wm h => by simp [fixtureClients] at h)

/-- Claim C5: updating workers over a batch A, B, C where every bridge call
returns an outcome object (B's recording its failure) processes every
component, raises for none of them, and aggregates A's and C's outcomes plus
B's failure; the iteration is never short-circuited by B's recorded failure. -/
theorem c5_update_workers_aggregates (bridge : WorkerBridge)
    (mode : WorkerUpdateMode) (a b c : Component)
    (rA rB rC : TryUpdateAllWorkersResult)
    (ha : bridge.update_component_workers a.component_name
      a.versioned_component_id.component_id mode
      a.versioned_component_id.version = .ok rA)
    (hb : bridge.update_component_workers b.component_name
      b.versioned_component_id.component_id mode
      b.versioned_component_id.version = .ok rB)
    (hc : bridge.update_component_workers c.component_name
      c.versioned_component_id.component_id mode
      c.versioned_component_id.version = .ok rC) :
    update_workers_by_components bridge [a, b, c] mode =
      ([a.component_name, b.component_name, c.component_name],
        .ok ⟨rA.outcomes ++ rB.outcomes ++ rC.outcomes⟩) ∧
    (∀ o ∈ rB.outcomes, o ∈ rA.outcomes ++ rB.outcomes ++ rC.outcomes) := by
  constructor
  · simp [update_workers_by_components, update_workers_go, ha, hb, hc,
      TryUpdateAllWorkersResult.extend]
  · intro o ho
    simp [ho]

/-- Witness for C5 at concrete inputs. -/
theorem c5_update_workers_aggregates_witness :
    update_workers_by_components fixtureBridge
      [fixtureComponent "A" 1 0, fixtureComponent "B" 2 0, fixtureComponent "C" 3 0]
      .automatic =
      (["A", "B", "C"],
        .ok ⟨[.success "A", .failure "B" "update failed", .success "C"]⟩) := by
  exact (c5_update_workers_aggregates fixtureBridge .automatic
    (fixtureComponent "A" 1 0) (fixtureComponent "B" 2 0) (fixtureComponent "C" 3 0)
    ⟨[.success "A"]⟩ ⟨[.failure "B" "update failed"]⟩ ⟨[.success "C"]⟩
    rfl rfl rfl).1

/-- Claim C6: redeploying workers over a batch is processed in selection order
and stops at the first failing component: with A succeeding and B failing, the
error is returned, the bridge was invoked exactly on A then B, and C is never
attempted. -/
theorem c6_redeploy_short_circuits (bridge : WorkerBridge) (a b c : Component)
    (m : String)
    (ha : bridge.redeploy_component_workers a.component_name
      a.versioned_component_id.component_id = .ok ())
    (hb : bridge.redeploy_component_workers b.component_name
      b.versioned_component_id.component_id = .error m) :
    redeploy_workers_by_components bridge [a, b, c] =
      ([a.component_name, b.component_name], .error (.workerServiceError m)) := by
  simp [redeploy_workers_by_components, redeploy_workers_go, ha, hb]

/-- Witness for C6 at concrete inputs. -/
theorem c6_redeploy_short_circuits_witness :
    redeploy_workers_by_components fixtureBridge
      [fixtureComponent "A" 1 0, fixtureComponent "B" 2 0, fixtureComponent "C" 3 0] =
      (["A", "B"], .error (.workerServiceError "redeploy failed")) := by
  exact c6_redeploy_short_circuits fixtureBridge
    (fixtureComponent "A" 1 0) (fixtureComponent "B" 2 0) (fixtureComponent "C" 3 0)
    "redeploy failed" rfl rfl

/-- Claim C4: splitting a raw component identifier on `/` routes by segment
count — 1 segment yields a name-only selection, 2 segments project plus name,
3 segments account plus project plus name, and any other count fails with a
parse error (project resolution itself is the external oracle, assumed to
succeed). -/
theorem c4_segment_count_routing
    (select_project : Option AccountId → String → Except CliError ProjectNameAndId)
    (raw : String)
    (hsp : ∀ a p, ∃ pr, select_project a p = .ok pr) :
    (∀ n, split_slash raw = [n] → n ≠ "" →
      parse_component_name select_project raw = .ok (none, none, n)) ∧
    (∀ p n, split_slash raw = [p, n] → p ≠ "" → n ≠ "" →
      ∃ pr, select_project none p = .ok pr ∧
        parse_component_name select_project raw = .ok (none, some pr, n)) ∧
    (∀ a p n, split_slash raw = [a, p, n] → a ≠ "" → p ≠ "" → n ≠ "" →
      ∃ pr, select_project (some a) p = .ok pr ∧
        parse_component_name select_project raw = .ok (some a, some pr, n)) ∧
    (∀ k, (split_slash raw).length = k → k ≠ 1 → k ≠ 2 → k ≠ 3 →
      parse_component_name select_project raw =
        .error (.malformedComponentName raw)) := by
  refine ⟨?_, ?_, ?_, ?_⟩
  · intro n hseg hn
    simp [parse_component_name, hseg, empty_checked, hn]
  · intro p n hseg hp hn
    obtain ⟨pr, hpr⟩ := hsp none p
    exact ⟨pr, hpr, by simp [parse_component_name, hseg, empty_checked, hp, hn, hpr]⟩
  · intro a p n hseg ha hp hn
    obtain ⟨pr, hpr⟩ := hsp (some a) p
    exact ⟨pr, hpr,
      by simp [parse_component_name, hseg, empty_checked, ha, hp, hn, hpr]⟩
  · intro k hk h1 h2 h3
    rcases hseg : split_slash raw with _ | ⟨s0, _ | ⟨s1, _ | ⟨s2, _ | ⟨s3, rest⟩⟩⟩⟩
    · simp [parse_component_name, hseg]
    · rw [hseg] at hk
      simp at hk
      omega
    · rw [hseg] at hk
      simp at hk
      omega
    · rw [hseg] at hk
      simp at hk
      omega
    · simp [parse_component_name, hseg]

/-- Witness for C4 at concrete inputs. -/
theorem c4_segment_count_routing_witness :
    parse_component_name fixtureSelectProject "acc/proj/comp" =
      .ok (some "acc", some { project_name := "proj", project_id := 7 }, "comp") := by
  obtain ⟨pr, hpr, h⟩ := (c4_segment_count_routing fixtureSelectProject
    "acc/proj/comp" (fun a p => ⟨{ project_name := p, project_id := 7 }, rfl⟩)).2.2.1
    "acc" "proj" "comp" (by decide) (by decide) (by decide) (by decide)
  simp only [fixtureSelectProject, Except.ok.injEq] at hpr
  rw [← hpr] at h
  exact h

/-- Claim C9: a raw identifier with a present-but-empty segment fails to parse
with an error naming the role (account, project, or component) of the empty
segment, for every 1-, 2- and 3-segment shape (checks earlier in the code's
evaluation order pass; the external project resolution, when reached before
the empty check, is assumed to succeed). -/
theorem c9_empty_segment_role
    (select_project : Option AccountId → String → Except CliError ProjectNameAndId) :
    (∀ raw, split_slash raw = [""] →
      parse_component_name select_project raw =
        .error (.missingSegment "component")) ∧
    (∀ raw n, split_slash raw = ["", n] →
      parse_component_name select_project raw = .error (.missingSegment "project")) ∧
    (∀ raw p pr, split_slash raw = [p, ""] → p ≠ "" →
      select_project none p = .ok pr →
      parse_component_name select_project raw =
        .error (.missingSegment "component")) ∧
    (∀ raw p n, split_slash raw = ["", p, n] →
      parse_component_name select_project raw = .error (.missingSegment "account")) ∧
    (∀ raw a n, split_slash raw = [a, "", n] → a ≠ "" →
      parse_component_name select_project raw = .error (.missingSegment "project")) ∧
    (∀ raw a p pr, split_slash raw = [a, p, ""] → a ≠ "" → p ≠ "" →
      select_project (some a) p = .ok pr →
      parse_component_name select_project raw =
        .error (.missingSegment "component")) := by
  refine ⟨?_, ?_, ?_, ?_, ?_, ?_⟩
  · intro raw hseg
    simp [parse_component_name, hseg, empty_checked]
  · intro raw n hseg
    simp [parse_component_name, hseg, empty_checked]
  · intro raw p pr hseg hp hpr
    simp [parse_component_name, hseg, empty_checked, hp, hpr]
  · intro raw p n hseg
    simp [parse_component_name, hseg, empty_checked]
  · intro raw a n hseg ha
    simp [parse_component_name, hseg, empty_checked, ha]
  · intro raw a p pr hseg ha hp hpr
    simp [parse_component_name, hseg, empty_checked, ha, hp, hpr]

/-- Witness for C9 at concrete inputs. -/
theorem c9_empty_segment_role_witness :
    parse_component_name fixtureSelectProject "/foo" =
      .error (.missingSegment "project") ∧
    parse_component_name fixtureSelectProject "proj/" =
      .error (.missingSegment "component") := by
  constructor
  · exact (c9_empty_segment_role fixtureSelectProject).2.1 "/foo" "foo" (by decide)
  · exact (c9_empty_segment_role fixtureSelectProject).2.2.1 "proj/" "proj"
      { project_name := "proj", project_id := 7 } (by decide) (by decide) rfl

/-- Every entry of the overwrite-map built by `hash_map_from_iter` is one of
the inserted entries. -/
theorem hash_map_from_iter_subset {α : Type} (l : List (String × α)) :
    ∀ x ∈ hash_map_from_iter l, x ∈ l := by
  have key : ∀ (l acc : List (String × α)) (x : String × α),
      x ∈ l.foldl (fun acc kv => acc.filter (fun p => p.1 ≠ kv.1) ++ [kv]) acc →
      x ∈ acc ∨ x ∈ l := by
    intro l
    induction l with
    | nil =>
      intro acc x hx
      exact Or.inl hx
    | cons a rest ih =>
      intro acc x hx
      rw [List.foldl_cons] at hx
      rcases ih _ x hx with h | h
      · rcases List.mem_append.mp h with h2 | h2
        · exact Or.inl (List.mem_of_mem_filter h2)
        · simp only [List.mem_singleton] at h2
          subst h2
          exact Or.inr (List.mem_cons_self _ _)
      · exact Or.inr (List.mem_cons_of_mem a h)
  intro x hx
  rcases key l [] x hx with h | h
  · simp at h
  · exact h

/-- The overwrite-map built from a non-empty insertion list is non-empty. -/
theorem hash_map_from_iter_ne_nil {α : Type} (l : List (String × α)) (h : l ≠ []) :
    hash_map_from_iter l ≠ [] := by
  have key : ∀ (l acc : List (String × α)), l ≠ [] ∨ acc ≠ [] →
      l.foldl (fun acc kv => acc.filter (fun p => p.1 ≠ kv.1) ++ [kv]) acc ≠ [] := by
    intro l
    induction l with
    | nil =>
      intro acc h
      rcases h with h | h
      · exact absurd rfl h
      · simpa using h
    | cons a rest ih =>
      intro acc _
      rw [List.foldl_cons]
      apply ih
      right
      simp
  exact key l [] (Or.inl h)

/-- When every dependency's stub interfaces resolve, the resolution loop
succeeds with one record per dependency, each coming from one of them. -/
theorem resolve_stub_interfaces_ok_of_all (app_ctx : AppCtx) :
    ∀ ds : List Dependency,
    (∀ d ∈ ds, ∃ si, app_ctx.component_stub_interfaces d.name = .ok si) →
    ∃ sis, resolve_stub_interfaces app_ctx ds = .ok sis ∧
      sis.length = ds.length ∧
      ∀ si ∈ sis, ∃ d ∈ ds, app_ctx.component_stub_interfaces d.name = .ok si := by
  intro ds
  induction ds with
  | nil =>
    intro _
    exact ⟨[], rfl, rfl, by simp⟩
  | cons d rest ih =>
    intro h
    obtain ⟨si, hsi⟩ := h d (List.mem_cons_self d rest)
    obtain ⟨sis, hres, hlen, hmem⟩ :=
      ih (fun d2 hd2 => h d2 (List.mem_cons_of_mem d hd2))
    refine ⟨si :: sis, ?_, by simp [hlen], ?_⟩
    · simp [resolve_stub_interfaces, hsi, hres]
    · intro si2 hsi2
      rcases List.mem_cons.mp hsi2 with h2 | h2
      · subst h2
        exact ⟨d, List.mem_cons_self d rest, hsi⟩
      · obtain ⟨d2, hd2, hok⟩ := hmem si2 h2
        exact ⟨d2, List.mem_cons_of_mem d hd2, hok⟩

/-- Claim C3: building the dynamic-linking map returns `None` when the
component has no dynamic WASM-RPC dependencies (never an empty-but-present
map), and returns `Some` of a non-empty map keyed by stub interface name
whenever at least one such dependency exists and all stub-interface
resolutions succeed; each target's component type is `Ephemeral` iff the
dependency's build marked it ephemeral, else `Durable`. -/
theorem c3_dynamic_linking (app_ctx : AppCtx) (component_name : String) :
    ((app_ctx.component_dependencies component_name).filter
        (fun dep => dep.dep_type = DependencyType.DynamicWasmRpc) = [] →
      app_component_dynamic_linking app_ctx component_name = .ok none) ∧
    ((app_ctx.component_dependencies component_name).filter
        (fun dep => dep.dep_type = DependencyType.DynamicWasmRpc) ≠ [] →
      (∀ d ∈ (app_ctx.component_dependencies component_name).filter
          (fun dep => dep.dep_type = DependencyType.DynamicWasmRpc),
        ∃ si, app_ctx.component_stub_interfaces d.name = .ok si) →
      ∃ m, app_component_dynamic_linking app_ctx component_name = .ok (some m) ∧
        m.dynamic_linking ≠ [] ∧
        ∀ entry ∈ m.dynamic_linking, ∃ si,
          (∃ d ∈ (app_ctx.component_dependencies component_name).filter
              (fun dep => dep.dep_type = DependencyType.DynamicWasmRpc),
            app_ctx.component_stub_interfaces d.name = .ok si) ∧
          entry.1 = si.stub_interface_name ∧
          ∃ dl, entry.2 = DynamicLinkedInstance.WasmRpc dl ∧
            ∀ t ∈ dl.targets,
              (t.2.component_type = ComponentType.Ephemeral ↔
                si.is_ephemeral = true)) := by
  constructor
  · intro hdeps
    simp [app_component_dynamic_linking, hdeps, resolve_stub_interfaces]
  · intro hne hall
    obtain ⟨sis, hres, hlen, hmem⟩ := resolve_stub_interfaces_ok_of_all app_ctx
      ((app_ctx.component_dependencies component_name).filter
        (fun dep => dep.dep_type = DependencyType.DynamicWasmRpc)) hall
    have hsis_ne : sis ≠ [] := by
      intro he
      subst he
      simp only [List.length_nil] at hlen
      exact hne (List.eq_nil_of_length_eq_zero hlen.symm)
    have hmap_ne : sis.map (fun stub_interfaces =>
        (stub_interfaces.stub_interface_name,
          DynamicLinkedInstance.WasmRpc ⟨hash_map_from_iter
            (stub_interfaces.exported_interfaces_per_stub_resource.map
              (fun ri =>
                (ri.1,
                  { interface_name := ri.2
                    component_name := stub_interfaces.component_name
                    component_type :=
                      if stub_interfaces.is_ephemeral then ComponentType.Ephemeral
                      else ComponentType.Durable : WasmRpcTarget })))⟩)) ≠ [] := by
      simpa using hsis_ne
    refine ⟨⟨hash_map_from_iter (sis.map (fun stub_interfaces =>
        (stub_interfaces.stub_interface_name,
          DynamicLinkedInstance.WasmRpc ⟨hash_map_from_iter
            (stub_interfaces.exported_interfaces_per_stub_resource.map
              (fun ri =>
                (ri.1,
                  { interface_name := ri.2
                    component_name := stub_interfaces.component_name
                    component_type :=
                      if stub_interfaces.is_ephemeral then ComponentType.Ephemeral
                      else ComponentType.Durable : WasmRpcTarget })))⟩)))⟩, ?_, ?_, ?_⟩
    · have hie : sis.isEmpty = false := by
        cases sis with
        | nil => exact absurd rfl hsis_ne
        | cons a rest => rfl
      simp [app_component_dynamic_linking, hres, hie]
    · exact hash_map_from_iter_ne_nil _ hmap_ne
    · intro entry hentry
      have hentry2 := hash_map_from_iter_subset _ entry hentry
      obtain ⟨si, hsi_mem, hf⟩ := List.mem_map.mp hentry2
      refine ⟨si, hmem si hsi_mem, ?_, ?_⟩
      · rw [← hf]
      · refine ⟨⟨hash_map_from_iter
          (si.exported_interfaces_per_stub_resource.map
            (fun ri =>
              (ri.1,
                { interface_name := ri.2
                  component_name := si.component_name
                  component_type :=
                    if si.is_ephemeral then ComponentType.Ephemeral
                    else ComponentType.Durable : WasmRpcTarget })))⟩, ?_, ?_⟩
        · rw [← hf]
        · intro t ht
          have ht2 := hash_map_from_iter_subset _ t ht
          obtain ⟨ri, _, hg⟩ := List.mem_map.mp ht2
          rw [← hg]
          cases hep : si.is_ephemeral <;> simp

/-- Witness for C3 at concrete inputs: `main` has one dynamic WASM-RPC
dependency whose stub exports two resources and is marked ephemeral. -/
theorem c3_dynamic_linking_witness :
    ∃ m, app_component_dynamic_linking fixtureApp "main" = .ok (some m) ∧
      m.dynamic_linking ≠ [] ∧
      ∀ entry ∈ m.dynamic_linking, ∃ si,
        (∃ d ∈ (fixtureApp.component_dependencies "main").filter
            (fun dep => dep.dep_type = DependencyType.DynamicWasmRpc),
          fixtureApp.component_stub_interfaces d.name = .ok si) ∧
        entry.1 = si.stub_interface_name ∧
        ∃ dl, entry.2 = DynamicLinkedInstance.WasmRpc dl ∧
          ∀ t ∈ dl.targets,
            (t.2.component_type = ComponentType.Ephemeral ↔
              si.is_ephemeral = true) := by
  exact (c3_dynamic_linking fixtureApp "main").2 (by decide)
    (fun d hd => by
      simp [fixtureApp] at hd
      simp [hd, fixtureApp])

/-- Errors escaping `mapServiceError` are always wrapped service errors. -/
theorem mapServiceError_error_shape {α : Type} (r : ServiceResult α) (e : CliError)
    (h : mapServiceError r = .error e) : ∃ msg, e = .serviceError msg := by
  cases r with
  | ok a => simp [mapServiceError] at h
  | notFound =>
    simp only [mapServiceError, Except.error.injEq] at h
    exact ⟨"not found", h.symm⟩
  | error m =>
    simp only [mapServiceError, Except.error.injEq] at h
    exact ⟨m, h.symm⟩

/-- Errors of the stub-interface resolution loop are always wrapped
stub-interface errors. -/
theorem resolve_stub_interfaces_error_shape (app_ctx : AppCtx) :
    ∀ (ds : List Dependency) (e : CliError),
    resolve_stub_interfaces app_ctx ds = .error e →
    ∃ d msg, e = .stubInterfacesError d msg := by
  intro ds
  induction ds with
  | nil =>
    intro e h
    simp [resolve_stub_interfaces] at h
  | cons d rest ih =>
    intro e h
    unfold resolve_stub_interfaces at h
    cases hs : app_ctx.component_stub_interfaces d.name with
    | error msg =>
      rw [hs] at h
      simp only [Except.error.injEq] at h
      exact ⟨d.name, msg, h.symm⟩
    | ok si =>
      rw [hs] at h
      cases hr : resolve_stub_interfaces app_ctx rest with
      | error e2 =>
        rw [hr] at h
        simp only [Except.error.injEq] at h
        subst h
        exact ih e2 hr
      | ok tail =>
        rw [hr] at h
        simp at h

/-- Errors of the dynamic-linking builder are always wrapped stub-interface
errors (in particular never the not-deployable error). -/
theorem app_component_dynamic_linking_error_shape (app_ctx : AppCtx) (n : String)
    (e : CliError) (h : app_component_dynamic_linking app_ctx n = .error e) :
    ∃ d msg, e = .stubInterfacesError d msg := by
  unfold app_component_dynamic_linking at h
  dsimp only at h
  cases hr : resolve_stub_interfaces app_ctx
      ((app_ctx.component_dependencies n).filter
        (fun dep => dep.dep_type = DependencyType.DynamicWasmRpc)) with
  | error e2 =>
    rw [hr] at h
    simp only [Except.error.injEq] at h
    subst h
    exact resolve_stub_interfaces_error_shape app_ctx _ e2 hr
  | ok mapping =>
    rw [hr] at h
    dsimp only at h
    cases mapping with
    | nil => simp at h
    | cons a rest => simp at h

/-- For a deployable manifest component type, `component_deploy_properties`
never fails with the not-deployable error. -/
theorem component_deploy_properties_not_nd (app_ctx : AppCtx) (n : String)
    (bp : Option String)
    (hdep : (app_ctx.component_properties n bp).component_type.is_deployable = true)
    (m : String) :
    component_deploy_properties app_ctx n bp ≠ .error (.notDeployable m) := by
  intro h
  unfold component_deploy_properties at h
  dsimp only at h
  cases ht : (app_ctx.component_properties n bp).component_type.as_deployable_component_type with
  | none =>
    rw [AppComponentType.is_deployable, ht] at hdep
    simp at hdep
  | some t =>
    rw [ht] at h
    cases hdl : app_component_dynamic_linking app_ctx n with
    | error e =>
      rw [hdl] at h
      simp only [Except.error.injEq] at h
      obtain ⟨d, msg, he⟩ :=
        app_component_dynamic_linking_error_shape app_ctx n e hdl
      rw [he] at h
      cases h
    | ok dl =>
      rw [hdl] at h
      simp at h

/-- Computation of the by-name id lookup over the store model: it always
succeeds and returns the id of the last row matching the name, if any. -/
theorem component_id_by_name_store (s : Store) (project : Option ProjectNameAndId)
    (n : String) :
    component_id_by_name s.clients project n =
      .ok (((s.get_components (some n)).getLast?).map
        (·.versioned_component_id.component_id)) := by
  cases hl : s.get_components (some n) with
  | nil =>
    simp [component_id_by_name, component, Store.clients, mapServiceError, hl]
  | cons a rest =>
    have hne : a :: rest ≠ [] := by simp
    have hg : (a :: rest).getLast? = some ((a :: rest).getLast hne) :=
      List.getLast?_eq_getLast_of_ne_nil hne
    simp [component_id_by_name, component, Store.clients, mapServiceError, hl, hg]

/-- For a deployable manifest component type, `deploy_component` never fails
with the not-deployable error. -/
theorem deploy_component_not_nd (oracles : DeployOracles) (app_ctx : AppCtx)
    (bp : Option String) (project : Option ProjectNameAndId) (n : String)
    (s : Store)
    (hdep : (app_ctx.component_properties n bp).component_type.is_deployable = true)
    (m : String) :
    deploy_component oracles app_ctx bp project n s ≠ .error (.notDeployable m) := by
  intro h
  unfold deploy_component at h
  rw [component_id_by_name_store] at h
  dsimp only at h
  cases hp : component_deploy_properties app_ctx n bp with
  | error e =>
    rw [hp] at h
    simp only [Except.error.injEq] at h
    subst h
    exact component_deploy_properties_not_nd app_ctx n bp hdep m hp
  | ok props =>
    rw [hp] at h
    dsimp only at h
    split at h
    · rename_i e heq
      simp only [Except.error.injEq] at h
      subst h
      split at heq
      · cases heq
      · split at heq
        · rename_i m2 hb
          cases heq
        · cases heq
    · rename_i ifs_files heq
      split at h
      · rename_i e heq2
        simp only [Except.error.injEq] at h
        subst h
        split at heq2
        · rename_i f
          split at heq2
          · cases heq2
          · cases heq2
        · cases heq2
      · split at h
        · split at h
          · rename_i id hid
            split at h
            · rename_i e heq3
              simp only [Except.error.injEq] at h
              subst h
              obtain ⟨msg, hmsg⟩ := mapServiceError_error_shape _ _ heq3
              cases hmsg
            · cases h
          · rename_i hid
            split at h
            · rename_i e heq3
              simp only [Except.error.injEq] at h
              subst h
              obtain ⟨msg, hmsg⟩ := mapServiceError_error_shape _ _ heq3
              cases hmsg
            · cases h
        · simp only [Except.error.injEq] at h
          cases h
/-- Claim C10: in the multi-component deploy loop, a selected component whose
declared type is not deployable is silently skipped — `deploy_component` is
never invoked for it and the rest of the batch proceeds (on success the
invocation trace is exactly the deployable names in selection order) — so the
not-deployable error branch inside `component_deploy_properties` is
unreachable from the deploy path and the loop never fails with that error. -/
theorem c10_deploy_loop_skips (oracles : DeployOracles) (app_ctx : AppCtx)
    (bp : Option String) (project : Option ProjectNameAndId)
    (names : List String) (s : Store) :
    (∀ n ∈ (deploy_components_loop oracles app_ctx bp project names s).1,
      (app_ctx.component_properties n bp).component_type.is_deployable = true) ∧
    (∀ m, (deploy_components_loop oracles app_ctx bp project names s).2 ≠
      .error (.notDeployable m)) ∧
    (∀ cs s2,
      (deploy_components_loop oracles app_ctx bp project names s).2 = .ok (cs, s2) →
      (deploy_components_loop oracles app_ctx bp project names s).1 =
        names.filter
          (fun n => (app_ctx.component_properties n bp).component_type.is_deployable)) := by
  induction names generalizing s with
  | nil =>
    refine ⟨?_, ?_, ?_⟩
    · intro n hn
      simp [deploy_components_loop] at hn
    · intro m
      simp [deploy_components_loop]
    · intro cs s2 _
      simp [deploy_components_loop]
  | cons n rest ih =>
    cases hdep : (app_ctx.component_properties n bp).component_type.is_deployable with
    | false =>
      refine ⟨?_, ?_, ?_⟩
      · intro n2 hn2
        simp only [deploy_components_loop, hdep, Bool.false_eq_true, if_false] at hn2
        exact (ih s).1 n2 hn2
      · intro m
        simp only [deploy_components_loop, hdep, Bool.false_eq_true, if_false]
        exact (ih s).2.1 m
      · intro cs s2 hok
        simp only [deploy_components_loop, hdep, Bool.false_eq_true, if_false] at hok ⊢
        rw [(ih s).2.2 cs s2 hok]
        simp [List.filter_cons, hdep]
    | true =>
      cases hd : deploy_component oracles app_ctx bp project n s with
      | error e =>
        refine ⟨?_, ?_, ?_⟩
        · intro n2 hn2
          simp only [deploy_components_loop, hdep, if_true, hd,
            List.mem_singleton] at hn2
          subst hn2
          exact hdep
        · intro m hcon
          simp only [deploy_components_loop, hdep, if_true, hd,
            Except.error.injEq] at hcon
          exact deploy_component_not_nd oracles app_ctx bp project n s hdep m
            (by rw [hd, hcon])
        · intro cs s2 hok
          simp only [deploy_components_loop, hdep, if_true, hd] at hok
          cases hok
      | ok res =>
        obtain ⟨op, c, s2⟩ := res
        refine ⟨?_, ?_, ?_⟩
        · intro n2 hn2
          simp only [deploy_components_loop, hdep, if_true, hd,
            List.mem_cons] at hn2
          rcases hn2 with h | h
          · subst h
            exact hdep
          · exact (ih s2).1 n2 h
        · intro m hcon
          simp only [deploy_components_loop, hdep, if_true, hd] at hcon
          cases htail : (deploy_components_loop oracles app_ctx bp project rest s2).2 with
          | error e2 =>
            rw [htail] at hcon
            simp only [Except.error.injEq] at hcon
            exact (ih s2).2.1 m (by rw [htail, hcon])
          | ok p =>
            rw [htail] at hcon
            obtain ⟨cs, s3⟩ := p
            cases hcon
        · intro cs s3 hok
          simp only [deploy_components_loop, hdep, if_true, hd] at hok ⊢
          cases htail : (deploy_components_loop oracles app_ctx bp project rest s2).2 with
          | error e2 =>
            rw [htail] at hok
            cases hok
          | ok p =>
            obtain ⟨cs2, s4⟩ := p
            rw [htail] at hok
            simp only [List.filter_cons, hdep, if_true]
            rw [(ih s2).2.2 cs2 s4 htail]

/-- Witness for C10 at concrete inputs: `lib` is not deployable and is
skipped, `main` is deployed. -/
theorem c10_deploy_loop_skips_witness :
    (∀ n ∈ (deploy_components_loop fixtureOracles fixtureApp none none
        ["main", "lib"] ⟨[], 0⟩).1,
      (fixtureApp.component_properties n none).component_type.is_deployable = true) ∧
    (deploy_components_loop fixtureOracles fixtureApp none none
        ["main", "lib"] ⟨[], 0⟩).1 =
      ["main", "lib"].filter
        (fun n =>
          (fixtureApp.component_properties n none).component_type.is_deployable) := by
  refine ⟨(c10_deploy_loop_skips fixtureOracles fixtureApp none none
    ["main", "lib"] ⟨[], 0⟩).1, ?_⟩
  exact (c10_deploy_loop_skips fixtureOracles fixtureApp none none
    ["main", "lib"] ⟨[], 0⟩).2.2
    [{ versioned_component_id := { component_id := 0, version := 0 }
       component_name := "main", component_type := .Durable }]
    ⟨[{ versioned_component_id := { component_id := 0, version := 0 }
        component_name := "main", component_type := .Durable }], 1⟩ (by rfl)

/-- A successful store update keeps the requested id and appends the new row. -/
theorem update_component_ok (s : Store) (id : Nat) (ty : ComponentType)
    (c : Component) (s2 : Store) (h : s.update_component id ty = .ok (c, s2)) :
    c.versioned_component_id.component_id = id ∧
    s2.components = s.components ++ [c] := by
  unfold Store.update_component at h
  cases hp : (s.components.filter
      (fun c => c.versioned_component_id.component_id == id)).getLast? with
  | none =>
    rw [hp] at h
    cases h
  | some prev =>
    rw [hp] at h
    dsimp only at h
    simp only [ServiceResult.ok.injEq, Prod.mk.injEq] at h
    obtain ⟨hc, hs⟩ := h
    subst hc
    subst hs
    exact ⟨rfl, rfl⟩

/-- A successful store create allocates the fresh id at version 0 with the
requested name and appends the new row. -/
theorem create_component_ok (s : Store) (n : String) (ty : ComponentType)
    (c : Component) (s2 : Store) (h : s.create_component n ty = .ok (c, s2)) :
    c = { versioned_component_id := { component_id := s.next_id, version := 0 }
          component_name := n, component_type := ty } ∧
    s2.components = s.components ++ [c] := by
  unfold Store.create_component at h
  dsimp only at h
  simp only [ServiceResult.ok.injEq, Prod.mk.injEq] at h
  obtain ⟨hc, hs⟩ := h
  subst hc
  subst hs
  exact ⟨rfl, rfl⟩

/-- Success shape of `deploy_component`: a successful deploy computed deploy
properties and performed exactly the store operation selected by the by-name
lookup on the pre-deploy store. -/
theorem deploy_component_ok_shape (oracles : DeployOracles) (app_ctx : AppCtx)
    (bp : Option String) (project : Option ProjectNameAndId) (n : String)
    (s : Store) (op : DeployOp) (c : Component) (s2 : Store)
    (h : deploy_component oracles app_ctx bp project n s = .ok (op, c, s2)) :
    ∃ props, component_deploy_properties app_ctx n bp = .ok props ∧
      match ((s.get_components (some n)).getLast?).map
          (·.versioned_component_id.component_id) with
      | some id =>
        op = .updated id ∧ s.update_component id props.component_type = .ok (c, s2)
      | none =>
        op = .created c.versioned_component_id.component_id ∧
        s.create_component n props.component_type = .ok (c, s2) := by
  unfold deploy_component at h
  rw [component_id_by_name_store] at h
  dsimp only at h
  cases hp : component_deploy_properties app_ctx n bp with
  | error e =>
    rw [hp] at h
    cases h
  | ok props =>
    rw [hp] at h
    dsimp only at h
    refine ⟨props, rfl, ?_⟩
    split at h
    · cases h
    · rename_i ifs_files heq
      split at h
      · cases h
      · split at h
        · cases hid : ((s.get_components (some n)).getLast?).map
              (·.versioned_component_id.component_id) with
          | some id =>
            rw [hid] at h
            dsimp only at h ⊢
            cases hu : s.update_component id props.component_type with
            | ok cs =>
              rw [hu] at h
              simp only [mapServiceError, Except.ok.injEq, Prod.mk.injEq] at h
              obtain ⟨hop, hc, hs⟩ := h
              subst hop
              refine ⟨rfl, ?_⟩
              rw [← hc, ← hs]
            | notFound =>
              rw [hu] at h
              cases h
            | error m2 =>
              rw [hu] at h
              cases h
          | none =>
            rw [hid] at h
            dsimp only at h ⊢
            cases hu : s.create_component n props.component_type with
            | ok cs =>
              rw [hu] at h
              simp only [mapServiceError, Except.ok.injEq, Prod.mk.injEq] at h
              obtain ⟨hop, hc, hs⟩ := h
              subst hop
              refine ⟨?_, ?_⟩
              · rw [← hc]
              · rw [← hc, ← hs]
            | notFound =>
              rw [hu] at h
              cases h
            | error m2 =>
              rw [hu] at h
              cases h
        · cases h

/-- A successful deploy whose pre-state lookup found id `cid` is an update with
that id: the resulting component keeps `cid` and is appended to the store. -/
theorem deploy_component_found_update (oracles : DeployOracles) (app_ctx : AppCtx)
    (bp : Option String) (project : Option ProjectNameAndId) (n : String)
    (s : Store) (cid : Nat) (op : DeployOp) (c : Component) (s2 : Store)
    (hfound : ((s.get_components (some n)).getLast?).map
      (·.versioned_component_id.component_id) = some cid)
    (h : deploy_component oracles app_ctx bp project n s = .ok (op, c, s2)) :
    op = .updated cid ∧ c.versioned_component_id.component_id = cid ∧
    s2.components = s.components ++ [c] := by
  obtain ⟨props, _, hmatch⟩ :=
    deploy_component_ok_shape oracles app_ctx bp project n s op c s2 h
  rw [hfound] at hmatch
  obtain ⟨hop, hu⟩ := hmatch
  obtain ⟨hcid, hs⟩ := update_component_ok s cid props.component_type c s2 hu
  exact ⟨hop, hcid, hs⟩

/-- A successful deploy whose pre-state lookup found nothing is a create: the
resulting component gets the fresh id, carries the deployed name, and is
appended to the store. -/
theorem deploy_component_none_create (oracles : DeployOracles) (app_ctx : AppCtx)
    (bp : Option String) (project : Option ProjectNameAndId) (n : String)
    (s : Store) (op : DeployOp) (c : Component) (s2 : Store)
    (hnone : ((s.get_components (some n)).getLast?).map
      (·.versioned_component_id.component_id) = none)
    (h : deploy_component oracles app_ctx bp project n s = .ok (op, c, s2)) :
    op = .created c.versioned_component_id.component_id ∧
    c.versioned_component_id.component_id = s.next_id ∧
    c.component_name = n ∧
    s2.components = s.components ++ [c] := by
  obtain ⟨props, _, hmatch⟩ :=
    deploy_component_ok_shape oracles app_ctx bp project n s op c s2 h
  rw [hnone] at hmatch
  obtain ⟨hop, hu⟩ := hmatch
  obtain ⟨hc, hs⟩ := create_component_ok s n props.component_type c s2 hu
  refine ⟨hop, ?_, ?_, hs⟩
  · rw [hc]
  · rw [hc]

/-- The last element of a list with one element appended is that element. -/
theorem getLast_append_single {α : Type} (l : List α) (a : α) :
    (l ++ [a]).getLast? = some a := by
  rw [List.getLast?_append_of_ne_nil l (by simp)]
  rfl

/-- Claim C1: `deploy_component` resolves the component by name first; when the
lookup finds an existing id the deploy is an update with exactly that id (the
deployed component keeps it), when the lookup finds nothing the deploy is a
create at a fresh id, and across two consecutive deploys of the same name the
second is an update preserving the first deploy's component id — the id is
stable across repeated updates of the same name. -/
theorem c1_deploy_create_update_routing (oracles : DeployOracles)
    (app_ctx : AppCtx) (bp : Option String) (project : Option ProjectNameAndId)
    (n : String) (s : Store) :
    (∀ cid op c s2,
      component_id_by_name s.clients project n = .ok (some cid) →
      deploy_component oracles app_ctx bp project n s = .ok (op, c, s2) →
      op = .updated cid ∧ c.versioned_component_id.component_id = cid) ∧
    (∀ op c s2,
      component_id_by_name s.clients project n = .ok none →
      deploy_component oracles app_ctx bp project n s = .ok (op, c, s2) →
      op = .created c.versioned_component_id.component_id ∧
      c.versioned_component_id.component_id = s.next_id) ∧
    (∀ op1 c1 s1 op2 c2 s2,
      deploy_component oracles app_ctx bp project n s = .ok (op1, c1, s1) →
      deploy_component oracles app_ctx bp project n s1 = .ok (op2, c2, s2) →
      op2 = .updated c1.versioned_component_id.component_id ∧
      c2.versioned_component_id.component_id =
        c1.versioned_component_id.component_id) := by
  refine ⟨?_, ?_, ?_⟩
  · intro cid op c s2 hlook hdep
    have hmap : ((s.get_components (some n)).getLast?).map
        (·.versioned_component_id.component_id) = some cid := by
      have hst := component_id_by_name_store s project n
      rw [hlook] at hst
      exact (Except.ok.inj hst).symm
    obtain ⟨hop, hcid, _⟩ := deploy_component_found_update oracles app_ctx bp
      project n s cid op c s2 hmap hdep
    exact ⟨hop, hcid⟩
  · intro op c s2 hlook hdep
    have hmap : ((s.get_components (some n)).getLast?).map
        (·.versioned_component_id.component_id) = none := by
      have hst := component_id_by_name_store s project n
      rw [hlook] at hst
      exact (Except.ok.inj hst).symm
    obtain ⟨hop, hcid, _, _⟩ := deploy_component_none_create oracles app_ctx bp
      project n s op c s2 hmap hdep
    exact ⟨hop, hcid⟩
  · intro op1 c1 s1 op2 c2 s2 h1 h2
    have key : ((s1.get_components (some n)).getLast?).map
        (·.versioned_component_id.component_id) =
        some c1.versioned_component_id.component_id := by
      cases hid : ((s.get_components (some n)).getLast?).map
          (·.versioned_component_id.component_id) with
      | some cid =>
        obtain ⟨_, hc1id, hs1⟩ := deploy_component_found_update oracles app_ctx
          bp project n s cid op1 c1 s1 hid h1
        cases hcn : c1.component_name == n with
        | false =>
          have hsame : s1.get_components (some n) = s.get_components (some n) := by
            simp [Store.get_components, hs1, List.filter_append, hcn]
          rw [hsame, hid, hc1id]
        | true =>
          have happ : s1.get_components (some n) =
              s.get_components (some n) ++ [c1] := by
            simp [Store.get_components, hs1, List.filter_append, hcn]
          rw [happ, getLast_append_single]
          rfl
      | none =>
        obtain ⟨_, _, hc1n, hs1⟩ := deploy_component_none_create oracles app_ctx
          bp project n s op1 c1 s1 hid h1
        have hcn : (c1.component_name == n) = true := by
          rw [hc1n]
          simp
        have happ : s1.get_components (some n) =
            s.get_components (some n) ++ [c1] := by
          simp [Store.get_components, hs1, List.filter_append, hcn]
        rw [happ, getLast_append_single]
        rfl
    obtain ⟨hop2, hcid2, _⟩ := deploy_component_found_update oracles app_ctx bp
      project n s1 c1.versioned_component_id.component_id op2 c2 s2 key h2
    exact ⟨hop2, hcid2⟩

/-- Witness for C1 at concrete inputs: deploying `plain` twice starting from
the empty store — the first deploy creates id 0, the second updates it and
preserves the id. -/
theorem c1_deploy_create_update_routing_witness :
    deploy_component fixtureOracles fixtureApp none none "plain" ⟨[], 0⟩ =
      .ok (.created 0, fixtureComponent "plain" 0 0,
        ⟨[fixtureComponent "plain" 0 0], 1⟩) ∧
    deploy_component fixtureOracles fixtureApp none none "plain"
        ⟨[fixtureComponent "plain" 0 0], 1⟩ =
      .ok (.updated 0,
        { versioned_component_id := { component_id := 0, version := 1 }
          component_name := "plain", component_type := .Durable },
        ⟨[fixtureComponent "plain" 0 0,
          { versioned_component_id := { component_id := 0, version := 1 }
            component_name := "plain", component_type := .Durable }], 1⟩) ∧
    (DeployOp.updated 0 =
      DeployOp.updated (fixtureComponent "plain" 0 0).versioned_component_id.component_id ∧
    ({ versioned_component_id := { component_id := 0, version := 1 }
       component_name := "plain", component_type := .Durable :
        Component }).versioned_component_id.component_id =
      (fixtureComponent "plain" 0 0).versioned_component_id.component_id) := by
  refine ⟨rfl, rfl, ?_⟩
  exact (c1_deploy_create_update_routing fixtureOracles fixtureApp none none
    "plain" ⟨[], 0⟩).2.2 (.created 0) (fixtureComponent "plain" 0 0)
    ⟨[fixtureComponent "plain" 0 0], 1⟩ (.updated 0)
    { versioned_component_id := { component_id := 0, version := 1 }
      component_name := "plain", component_type := .Durable }
    ⟨[fixtureComponent "plain" 0 0,
      { versioned_component_id := { component_id := 0, version := 1 }
        component_name := "plain", component_type := .Durable }], 1⟩ rfl rfl

end GolemCli
